import Mathlib

/-!
Verification of the render orchestrator and composition pipeline of the
Alcient backend (`backend/orchestrator.py`, `backend/captions.py`,
`backend/compositor.py`).

Modelling conventions for the shallow embedding:

* Python floats are modelled as rationals (`ℚ`); `round(x, 3)` is modelled by
  `pyRound3` (round half up to a multiple of `1/1000`; ties between binary
  floats are immaterial for the properties proved here), `round(x, 2)` by
  `pyRound2`.
* Python dict fields that may be absent (or hold a non-numeric value that
  `float(...)` rejects) are modelled as `Option` fields; `none` stands for
  "absent or not coercible".
* Mutable state (the job table, the cancel flags, the media cache) is
  modelled by explicit state records threaded through the operations.
* External effects (TTS synthesis, Whisper transcription, HTTP downloads,
  ffmpeg invocations, filesystem checks, and the cooperative cancel flag as
  sampled over time) are modelled as components of explicit environment
  records; repository code is translated directly.
-/

/- ================================================================
SECTION 1: DEFINITIONS
================================================================ -/

/-- Python's `round(x, 3)` on our rational model of floats:
round half up to a multiple of `1/1000`. -/
def pyRound3 (q : ℚ) : ℚ := (⌊q * 1000 + 1 / 2⌋ : ℤ) / 1000

/-- Python's `round(x, 2)` on our rational model of floats. -/
def pyRound2 (q : ℚ) : ℚ := (⌊q * 100 + 1 / 2⌋ : ℤ) / 100

/-- Python's `str.strip()` (used on caption tokens). -/
def pyStrip (s : String) : String :=
  ⟨((s.toList.dropWhile Char.isWhitespace).reverse.dropWhile
      Char.isWhitespace).reverse⟩

/-- `s.endswith(c)` for a single-character suffix, applied to a string. -/
def endsWithChar (s : String) (c : Char) : Bool :=
  s.toList.getLast? = some c

/-- Helper for Python's `str.split()`: accumulate the current (reversed)
token while scanning. -/
def pySplitGo : List Char → List Char → List String
  | [], cur => if cur.isEmpty then [] else [⟨cur.reverse⟩]
  | c :: cs, cur =>
    if c.isWhitespace then
      if cur.isEmpty then pySplitGo cs [] else ⟨cur.reverse⟩ :: pySplitGo cs []
    else
      pySplitGo cs (c :: cur)

/-- Python's `text.split()` (split on whitespace runs, dropping empty
tokens), as used by `_fallback_words_from_text`. -/
def pyTokens (s : String) : List String := pySplitGo s.toList []

/- ----------------------------------------------------------------
Scene ordering (`orchestrator.py`, `_run_render` lines 178-209).

Each submitted scene is tagged with its submission index
(`scene_payload = {**scene, "_original_index": idx}`), prepared
concurrently (so the prepared list arrives in an arbitrary completion
order), and then re-sorted by `_scene_sort_key`.
---------------------------------------------------------------- -/

/-- A scene as submitted: its declared `order` value interpreted as a number
(`none` when the field is absent or `float(...)` raises), plus the rest of
the scene payload, abstracted as an opaque string. -/
structure SceneInput where
  order : Option ℚ
  payload : String
deriving DecidableEq, Repr

/-- A scene payload tagged with `_original_index` (submission index), as built
in `_run_render`: `{**scene, "_original_index": idx}`. -/
structure TaggedScene where
  order : Option ℚ
  payload : String
  origIndex : ℕ
deriving DecidableEq, Repr

/-- The tagging loop `for idx, scene in enumerate(scenes): {**scene,
"_original_index": idx}`. -/
def tagScenes (scenes : List SceneInput) : List TaggedScene :=
  scenes.enum.map fun p => ⟨p.2.order, p.2.payload, p.1⟩

/-- `_scene_sort_key` (orchestrator.py lines 195-207): the numeric `order`
when coercible, else the submission index; the submission index is the
tiebreaker. -/
def sceneSortKey (s : TaggedScene) : ℚ × ℕ :=
  (match s.order with
   | some q => q
   | none => (s.origIndex : ℚ), s.origIndex)

/-- Python's lexicographic comparison of the `(key_value, fallback_index)`
tuples, as used by `sorted(prepared_scenes, key=_scene_sort_key)`. -/
def sceneLE (a b : TaggedScene) : Bool :=
  decide ((sceneSortKey a).1 < (sceneSortKey b).1 ∨
    ((sceneSortKey a).1 = (sceneSortKey b).1 ∧
      (sceneSortKey a).2 ≤ (sceneSortKey b).2))

/-- `sorted(prepared_scenes, key=_scene_sort_key)` (a stable sort, like
Python's). -/
def sortPreparedScenes (l : List TaggedScene) : List TaggedScene :=
  l.mergeSort sceneLE

/-- Strict lexicographic order on the sort keys. -/
def sceneLT (a b : TaggedScene) : Prop :=
  (sceneSortKey a).1 < (sceneSortKey b).1 ∨
    ((sceneSortKey a).1 = (sceneSortKey b).1 ∧
      (sceneSortKey a).2 < (sceneSortKey b).2)

instance : IsAntisymm TaggedScene sceneLT where
  antisymm a b h₁ h₂ := by
    exfalso
    rcases h₁ with h₁ | ⟨h₁, h₁'⟩ <;> rcases h₂ with h₂ | ⟨h₂, h₂'⟩
    · exact lt_asymm h₁ h₂
    · rw [h₂] at h₁; exact lt_irrefl _ h₁
    · rw [h₁] at h₂; exact lt_irrefl _ h₂
    · exact lt_asymm h₁' h₂'

/- ----------------------------------------------------------------
Caption words and the subtitle track builder (`captions.py`).
---------------------------------------------------------------- -/

/-- `CaptionWord` (captions.py lines 25-32). -/
structure CaptionWord where
  text : String
  start : ℚ
  stop : ℚ
deriving DecidableEq, Repr

/-- One raw entry of a scene's caption payload (a dict with `text`/`word`
and optional `start`/`end` keys); `text` is the coalesced token string,
`start`/`stop` are `none` when absent or not coercible to float. -/
structure RawCaption where
  text : String
  start : Option ℚ
  stop : Option ℚ
deriving DecidableEq, Repr

/-- `_coerce_time` (captions.py lines 242-251) on an optional numeric value:
absent/uncoercible values give the fallback, numeric values are rounded to
3 decimal places. -/
def coerceTime (v : Option ℚ) (fallback : Option ℚ) : Option ℚ :=
  match v with
  | some q => some (pyRound3 q)
  | none => fallback

/-- The accumulation loop of `_normalise_caption_payload` (captions.py lines
352-370): skip empty tokens, default a missing `start` to the previous
word's end (or `0.0`), default or repair `end` to `start + 0.4`. -/
def normaliseGo : List RawCaption → Option ℚ → List CaptionWord
  | [], _ => []
  | r :: rs, prev =>
    let tok := pyStrip r.text
    if tok = "" then normaliseGo rs prev
    else
      let start :=
        match coerceTime r.start none with
        | some v => v
        | none => prev.getD 0
      let e0 :=
        match coerceTime r.stop (some (start + 2/5)) with
        | some v => v
        | none => start + 2/5
      let e := if e0 ≤ start then start + 2/5 else e0
      ⟨tok, start, e⟩ :: normaliseGo rs (some e)

/-- `_normalise_caption_payload` (captions.py lines 339-373): normalise the
raw words then sort them by `start` (`words.sort(key=lambda w: w.start)`,
a stable sort). `none` models an absent/falsy payload. -/
def normaliseCaptionPayload (caps : Option (List RawCaption)) :
    List CaptionWord :=
  match caps with
  | none => []
  | some raws =>
    (normaliseGo raws none).mergeSort fun a b => decide (a.start ≤ b.start)

/-- `_fallback_words_from_text` (captions.py lines 254-265): split the text
on whitespace and distribute the tokens evenly across the duration
(`0.4` seconds per word when no positive duration is known). -/
def fallbackWordsFromText (text : String) (duration : Option ℚ) :
    List CaptionWord :=
  let toks := pyTokens text
  if toks.isEmpty then []
  else
    let total : ℚ :=
      match duration with
      | some d => if 0 < d then d else (toks.length : ℚ) * (2/5)
      | none => (toks.length : ℚ) * (2/5)
    let slice := total / (toks.length : ℚ)
    toks.enum.map fun p =>
      ⟨p.2, pyRound3 (p.1 * slice), pyRound3 (pyRound3 (p.1 * slice) + slice)⟩

/-- A scene as consumed by `generate_ass_subtitles`: the (possibly absent)
caption word payload, the narration text, and the declared durations. -/
structure CaptionScene where
  captions : Option (List RawCaption)
  script : Option String
  text : Option String
  audioDuration : Option ℚ
  duration : Option ℚ
deriving DecidableEq, Repr

/-- Python's `scene.get("script") or scene.get("text") or ""` (empty strings
are falsy). -/
def effectiveText (s : CaptionScene) : String :=
  match s.script with
  | some t => if t ≠ "" then t else (match s.text with
    | some u => if u ≠ "" then u else ""
    | none => "")
  | none =>
    match s.text with
    | some u => if u ≠ "" then u else ""
    | none => ""

/-- The coerced declared duration: `_coerce_time(scene.get("audioDuration"))`
falling back to `_coerce_time(scene.get("duration"))`. -/
def declaredDuration (s : CaptionScene) : Option ℚ :=
  match s.audioDuration with
  | some v => some (pyRound3 v)
  | none => s.duration.map pyRound3

/-- `max((word.end for word in words), default=0.0)`. -/
def lastEnd : List CaptionWord → ℚ
  | [] => 0
  | w :: ws => ws.foldl (fun m x => max m x.stop) w.stop

/-- `_scene_duration` (captions.py lines 517-526): the declared duration,
raised to the last caption word's end when that is larger, clamped at 0 and
rounded to 3 decimal places. -/
def sceneDuration (s : CaptionScene) (words : List CaptionWord) : ℚ :=
  let explicit : ℚ :=
    match declaredDuration s with
    | none => lastEnd words
    | some x => if x < lastEnd words then lastEnd words else x
  max 0 (pyRound3 explicit)

/-- The per-scene local caption words of `generate_ass_subtitles` (captions.py
lines 589-595): the normalised payload, or synthesized fallback words from
the scene text when no caption words were supplied. -/
def localWords (s : CaptionScene) : List CaptionWord :=
  let ws := normaliseCaptionPayload s.captions
  if ws.isEmpty then fallbackWordsFromText (effectiveText s) (declaredDuration s)
  else ws

/-- The absolute-word stream of `generate_ass_subtitles` (captions.py lines
585-663): every scene's local words shifted by the running
`timeline_offset`, which advances by `_scene_duration` after each scene. -/
def assembleWordsFrom (offset : ℚ) : List CaptionScene → List CaptionWord
  | [] => []
  | s :: rest =>
    let ws := localWords s
    ws.map (fun w => ⟨w.text, pyRound3 (w.start + offset), pyRound3 (w.stop + offset)⟩)
      ++ assembleWordsFrom (pyRound3 (offset + sceneDuration s ws)) rest

/-- The absolute caption words of a whole project timeline
(`timeline_offset` starts at `0.0`). -/
def assembleWords (scenes : List CaptionScene) : List CaptionWord :=
  assembleWordsFrom 0 scenes

/-- The line-closing test of `_group_words_into_lines` (captions.py line
473): the line (of length `len` ending in word `w`) reaches `max_words`, or
the word ends a sentence, or it ends a clause and the line has at least
`max_words // 2` words. -/
def closeCond (maxWords len : ℕ) (w : CaptionWord) : Bool :=
  let s := pyStrip w.text
  (maxWords ≤ len) ||
    (endsWithChar s '.' || endsWithChar s '!' || endsWithChar s '?') ||
    ((endsWithChar s ';' || endsWithChar s ':') && (maxWords / 2 ≤ len))

/-- The accumulation loop of `_group_words_into_lines` (captions.py lines
463-478): push the word onto the current line, close the line when
`closeCond` fires, and flush any unfinished line at the end. -/
def groupAux (maxWords : ℕ) (current : List CaptionWord) :
    List CaptionWord → List (List CaptionWord)
  | [] => if current.isEmpty then [] else [current]
  | w :: ws =>
    let cur := current ++ [w]
    if closeCond maxWords cur.length w then cur :: groupAux maxWords [] ws
    else groupAux maxWords cur ws

/-- `_group_words_into_lines` (captions.py lines 463-478). -/
def groupWordsIntoLines (maxWords : ℕ) (words : List CaptionWord) :
    List (List CaptionWord) :=
  groupAux maxWords [] words

/- ----------------------------------------------------------------
Media acquisition (`compositor.py`, `ensure_local_clip` lines 73-84).
---------------------------------------------------------------- -/

/-- `os.path.splitext(...)[1]` on a path given as a character list: the
extension starts at the rightmost dot of the final path component, unless
every character before that dot in the component is itself a dot. -/
def pySplitextExt (cs : List Char) : List Char :=
  let b := ((cs.reverse).takeWhile (· ≠ '/')).reverse
  let rev := b.reverse
  let pre := rev.takeWhile (· ≠ '.')
  if pre.length = rev.length then []
  else
    let before := b.take (b.length - pre.length - 1)
    if before.all (· = '.') then [] else '.' :: pre.reverse

/-- `os.path.splitext(url.split("?")[0])[1] or ".mp4"` (compositor.py line
76): the extension inferred from the URL path, defaulting to `.mp4`. -/
def urlExt (url : String) : String :=
  let e := pySplitextExt (url.toList.takeWhile (· ≠ '?'))
  if e.isEmpty then ".mp4" else ⟨e⟩

/-- The deterministic cache path `cache_dir / f"{key}{ext}"` where `key` is
the stable hash of the URL (sha256 hex digest, modelled as an arbitrary
function parameter `hash`). -/
def cacheKeyPath (hash : String → String) (cacheDir url : String) : String :=
  cacheDir ++ "/" ++ hash url ++ urlExt url

/-- The media cache: the set of files present on disk, plus a counter of
network fetches performed (instrumentation of `requests.get`). -/
structure MediaCacheState where
  files : List String
  fetchCount : ℕ
deriving DecidableEq, Repr

/-- `ensure_local_clip` (compositor.py lines 73-84): return the cached file
without any network access when it exists, otherwise download (counting one
fetch; `netOk` tells whether `requests.get`/`raise_for_status` succeeds)
and write it. -/
def ensureLocalClip (hash : String → String) (netOk : String → Bool)
    (cacheDir url : String) (s : MediaCacheState) :
    Except String (String × MediaCacheState) :=
  let path := cacheKeyPath hash cacheDir url
  if path ∈ s.files then .ok (path, s)
  else if netOk url then .ok (path, ⟨path :: s.files, s.fetchCount + 1⟩)
  else .error "MediaFetchError"

/- ----------------------------------------------------------------
Scene composition (`compositor.py`, `render_project` lines 203-322).
---------------------------------------------------------------- -/

/-- A scene as consumed by `render_project` (already enriched by the
orchestrator). -/
structure RenderScene where
  id : Option String
  audioDuration : Option ℚ
  duration : Option ℚ
  audioPath : String
  mediaUrl : Option String
deriving DecidableEq, Repr

/-- The duration coercion of `render_project` (compositor.py lines 227-232):
`scene.get("audioDuration") or scene.get("duration") or 3.0` (zero is
falsy), clamped below at `0.1`. -/
def sceneClipDuration (s : RenderScene) : ℚ :=
  let v : ℚ :=
    match s.audioDuration with
    | some d => if d ≠ 0 then d else (match s.duration with
      | some d' => if d' ≠ 0 then d' else 3
      | none => 3)
    | none =>
      match s.duration with
      | some d' => if d' ≠ 0 then d' else 3
      | none => 3
  max v (1/10)

/-- Errors escaping `render_project`: the deliberate `RenderCancelled`
control signal, or a fatal failure (`RenderError` and the wrapped
`MediaFetchError`). -/
inductive RenderErr where
  | cancelled : String → RenderErr
  | fatal : String → RenderErr
deriving DecidableEq, Repr

/-- Python's f-string rendering of an optional value (absent prints as
`None`). -/
def pyShowOpt (o : Option String) : String := o.getD "None"

/-- The external world of `render_project`: filesystem existence checks,
network success, per-clip ffmpeg outcomes (by clip index), the concat and
burn-in ffmpeg outcomes, whether the generated subtitle file exists
non-empty on disk, and the job's cancel flag as sampled at the n-th
cooperative checkpoint. -/
structure CompEnv where
  fileExists : String → Bool
  netOk : String → Bool
  buildScene : ℕ → Except String Unit
  concat : Except String Unit
  burn : Except String Unit
  subtitleUsable : Bool
  cancel : ℕ → Bool

/-- The per-scene loop of `render_project` (compositor.py lines 224-261):
cancel checkpoint, missing-audio check, media acquisition, clip build,
trailing cancel checkpoint. Returns the checkpoint counter, the number of
clips produced and the media cache. -/
def renderLoop (env : CompEnv) (hash : String → String) (cacheDir : String) :
    List RenderScene → ℕ → ℕ → MediaCacheState →
    Except RenderErr (ℕ × ℕ × MediaCacheState)
  | [], tick, count, cache => .ok (tick, count, cache)
  | s :: rest, tick, count, cache =>
    if env.cancel tick then
      .error (.cancelled "Render cancelled before processing scene")
    else if env.fileExists s.audioPath = false then
      .error (.fatal ("Audio track missing for scene " ++ pyShowOpt s.id))
    else
      let fetched : Except RenderErr MediaCacheState :=
        match s.mediaUrl with
        | none => .ok cache
        | some url =>
          match ensureLocalClip hash env.netOk cacheDir url cache with
          | .error _ => .error (.fatal ("Media download failed for " ++ url))
          | .ok (_, cache') => .ok cache'
      match fetched with
      | .error e => .error e
      | .ok cache' =>
        match env.buildScene count with
        | .error msg => .error (.fatal msg)
        | .ok _ =>
          if env.cancel (tick + 1) then
            .error (.cancelled "Render cancelled during scene assembly")
          else
            renderLoop env hash cacheDir rest (tick + 2) (count + 1) cache'

/-- `render_project` (compositor.py lines 203-322): run the per-scene loop,
fail when no clips were produced, then concatenate and burn in subtitles
(the subtitle-generation step is pure and cannot raise; whether the
resulting file is used is the env's `subtitleUsable` filesystem fact). -/
def renderProject (env : CompEnv) (hash : String → String)
    (cacheDir projectId : String) (scenes : List RenderScene)
    (cache : MediaCacheState) : Except RenderErr String :=
  match renderLoop env hash cacheDir scenes 0 0 cache with
  | .error e => .error e
  | .ok (tick, count, _) =>
    if count = 0 then .error (.fatal "No scene clips were generated")
    else if env.cancel tick then
      .error (.cancelled "Render cancelled before final assembly")
    else
      match env.concat with
      | .error msg => .error (.fatal msg)
      | .ok _ =>
        if env.cancel (tick + 1) then
          .error (.cancelled "Render cancelled before subtitle burn-in")
        else if env.subtitleUsable then
          match env.burn with
          | .error msg => .error (.fatal msg)
          | .ok _ => .ok (projectId ++ "_final.mp4")
        else .ok (projectId ++ "_final.mp4")

/- ----------------------------------------------------------------
Job lifecycle (`orchestrator.py`).
---------------------------------------------------------------- -/

/-- A job record (orchestrator.py lines 46-53). -/
structure Job where
  id : String
  status : String
  projectId : Option String
  progress : ℕ
  videoUrl : Option String
  error : Option String
deriving DecidableEq, Repr

/-- The terminal statuses (orchestrator.py line 111). -/
def terminalStatuses : List String := ["completed", "failed", "cancelled", "paused"]

/-- The keyword arguments of one `_update(job_id, **updates)` call: `some v`
means the key is present with value `v`. -/
structure JobUpdate where
  status : Option String := none
  progress : Option ℕ := none
  videoUrl : Option String := none
  error : Option String := none
  projectId : Option String := none
deriving DecidableEq, Repr

/-- `job.update(updates)` (orchestrator.py line 300): overwrite exactly the
supplied keys, unconditionally. -/
def applyUpdate (j : Job) (u : JobUpdate) : Job :=
  { j with
    status := u.status.getD j.status
    progress := u.progress.getD j.progress
    videoUrl := match u.videoUrl with | some v => some v | none => j.videoUrl
    error := match u.error with | some v => some v | none => j.error
    projectId := match u.projectId with | some v => some v | none => j.projectId }

/-- The orchestrator's mutable state: the job table (the in-memory dict
merged with its persisted mirror, which `_update`/`request_stop` consult on
a miss), the per-job cancel events and the requested stop targets. -/
structure OrchState where
  jobs : String → Option Job
  cancelFlags : String → Bool
  cancelTargets : String → Option String

/-- `_update` (orchestrator.py lines 287-305): look the job up, apply the
updates unconditionally, store and persist. An unknown job id is a no-op. -/
def updateJob (s : OrchState) (jobId : String) (u : JobUpdate) : OrchState :=
  match s.jobs jobId with
  | none => s
  | some j =>
    { s with
      jobs := fun i => if i = jobId then some (applyUpdate j u) else s.jobs i }

/-- `request_stop` (orchestrator.py lines 98-125): reject unsupported target
statuses, no-op on unknown or terminal jobs, otherwise set the cancel
event, record the target and move the job to the interim status. -/
def requestStop (s : OrchState) (jobId finalStatus : String) :
    Except String (Option Job × OrchState) :=
  if finalStatus ≠ "cancelled" ∧ finalStatus ≠ "paused" then
    .error ("Unsupported stop status: " ++ finalStatus)
  else
    match s.jobs jobId with
    | none => .ok (none, s)
    | some j =>
      if j.status ∈ terminalStatuses then .ok (some j, s)
      else
        let interim := if finalStatus = "cancelled" then "cancelling" else "pausing"
        let j' := { j with status := interim }
        .ok (some j',
          { jobs := fun i => if i = jobId then some j' else s.jobs i
            cancelFlags := fun i => if i = jobId then true else s.cancelFlags i
            cancelTargets := fun i =>
              if i = jobId then some finalStatus else s.cancelTargets i })

/-- `_is_cancelled` (orchestrator.py lines 317-319). -/
def isCancelled (s : OrchState) (jobId : String) : Bool := s.cancelFlags jobId

/- ----------------------------------------------------------------
Per-scene preparation (`orchestrator.py`, `_process_scene` lines 129-153).
---------------------------------------------------------------- -/

/-- Python string truthiness: an empty string is falsy. -/
def pyTruthy (o : Option String) : Option String :=
  match o with
  | some s => if s = "" then none else some s
  | none => none

/-- A scene as submitted to `_process_scene`. -/
structure PrepScene where
  script : Option String
  text : Option String
  ttsVoice : Option String
deriving DecidableEq, Repr

/-- A scene after `_process_scene` enriched it with the narration audio and
the caption payload. -/
structure PreparedScene where
  script : Option String
  text : Option String
  ttsVoice : Option String
  audioPath : String
  audioDuration : ℚ
  captions : List RawCaption
deriving DecidableEq, Repr

/-- `Path(p).with_suffix(".wav")` when the suffix is not already `.wav`
(orchestrator.py lines 138-140). -/
def toWavPath (p : String) : String :=
  let ext := pySplitextExt p.toList
  if (⟨ext.map Char.toLower⟩ : String) = ".wav" then p
  else ⟨(p.toList.take (p.toList.length - ext.length)) ++ (".wav".toList)⟩

/-- The external collaborators of `_process_scene`: `ensure_tts_audio`
(returning an audio path and its duration, or raising) and
`generate_word_timestamps` (returning the word payload, or raising). -/
structure PrepEnv where
  tts : String → Option String → Except String (String × ℚ)
  transcribe : String → String → Except String (List RawCaption)

/-- `_process_scene` (orchestrator.py lines 129-153): skip when cancelled;
synthesize narration (exceptions propagate); then transcribe word timings,
attaching an empty caption list when transcription raises. -/
def processScene (env : PrepEnv) (cancelled : Bool) (voiceModel : Option String)
    (s : PrepScene) : Except String (Option PreparedScene) :=
  if cancelled then .ok none
  else
    let scriptText := (pyTruthy s.script).getD ((pyTruthy s.text).getD "")
    match env.tts scriptText ((pyTruthy s.ttsVoice).orElse fun _ => voiceModel) with
    | .error e => .error e
    | .ok (path, dur) =>
      let wav := toWavPath path
      let caps :=
        match env.transcribe wav scriptText with
        | .ok c => c
        | .error _ => []
      .ok (some ⟨s.script, s.text, s.ttsVoice, wav, pyRound2 dur, caps⟩)

/-- The scene fan-out of `_run_render` (orchestrator.py lines 178-193),
sequentialised in submission order: any scene preparation error escapes the
batch (the parallel completion order only affects which failing scene's
error surfaces first, which no property here depends on). -/
def prepareScenes (env : PrepEnv) (cancelled : Bool)
    (voiceModel : Option String) : List PrepScene →
    Except String (List PreparedScene)
  | [] => .ok []
  | s :: rest =>
    match processScene env cancelled voiceModel s with
    | .error e => .error e
    | .ok r =>
      match prepareScenes env cancelled voiceModel rest with
      | .error e => .error e
      | .ok rs => .ok (match r with | some p => p :: rs | none => rs)

/-- The completion handling of `_run_render` (orchestrator.py lines 225-285):
`RenderCancelled` moves the job to the requested stop target, any other
exception moves it to `failed` with the message recorded, and success
records the resolved URL (`uploadedUrl` is the optional durable-store URL,
`bust` the random cache-busting suffix) — unless the cancel flag was raised
meanwhile (`cancelAfter`, line 240). -/
def finishRender (job : Job) (cancelTarget : String)
    (r : Except RenderErr String) (cancelAfter : Bool)
    (uploadedUrl : Option String) (projectId : String) (bust : String) : Job :=
  match r with
  | .error (.cancelled _) => applyUpdate job { status := some cancelTarget }
  | .error (.fatal msg) =>
    applyUpdate job { status := some "failed", progress := some 100, error := some msg }
  | .ok path =>
    if cancelAfter then applyUpdate job { status := some cancelTarget }
    else
      let url :=
        match uploadedUrl with
        | some u => u
        | none => "/videos/" ++ projectId ++ "/" ++ path ++ "?v=" ++ bust
      applyUpdate job
        { status := some "completed", progress := some 100,
          videoUrl := some url, projectId := some projectId }

/-- The `except Exception` branch of `_run_render` (orchestrator.py lines
276-283), which also catches scene-preparation errors re-raised by
`future.result()`. -/
def failJob (job : Job) (msg : String) : Job :=
  applyUpdate job { status := some "failed", progress := some 100, error := some msg }

/- ----------------------------------------------------------------
Concrete fixtures used by witnesses and counterexamples.
---------------------------------------------------------------- -/

/-- A job that already completed. -/
def jobC2 : Job := ⟨"j1", "completed", none, 100, some "u.mp4", none⟩

/-- An orchestrator state holding only `jobC2`. -/
def stateC2 : OrchState :=
  ⟨fun i => if i = "j1" then some jobC2 else none, fun _ => false, fun _ => none⟩

/-- An internal update as issued by the failure branch of `_run_render`. -/
def updC2 : JobUpdate := { status := some "failed", error := some "boom" }

/-- A job still rendering. -/
def jobC6 : Job := ⟨"j2", "rendering", some "p1", 5, none, none⟩

/-- An orchestrator state holding only `jobC6`. -/
def stateC6 : OrchState :=
  ⟨fun i => if i = "j2" then some jobC6 else none, fun _ => false, fun _ => none⟩

/-- A preparation environment where TTS fails exactly on the text `fail` and
transcription always fails. -/
def envC9 : PrepEnv :=
  ⟨fun t _ => if t = "fail" then .error "boom" else .ok ("a.mp3", 3/2),
   fun _ _ => .error "nope"⟩

/-- A composition environment in which no file exists and nothing else
fails. -/
def envC4 : CompEnv :=
  ⟨fun _ => false, fun _ => true, fun _ => .ok (), .ok (), .ok (), false,
   fun _ => false⟩

/- ================================================================
SECTION 2: THEOREMS
================================================================ -/

/-- A rational that is already a multiple of `1/1000` is fixed by `pyRound3`. -/
theorem pyRound3_eq_self {q : ℚ} (h : ∃ m : ℤ, (m : ℚ) = q * 1000) :
    pyRound3 q = q := by
  obtain ⟨m, hm⟩ := h
  unfold pyRound3
  rw [← hm, Int.floor_int_add]
  have h2 : ⌊(1 : ℚ) / 2⌋ = 0 := by
    rw [Int.floor_eq_zero_iff]
    constructor <;> norm_num
  rw [h2, add_zero]
  field_simp
  linarith

/-- `pyRound3` of a `max` of two of its fixed points is the `max`. -/
theorem pyRound3_max {a b : ℚ} (ha : pyRound3 a = a) (hb : pyRound3 b = b) :
    pyRound3 (max a b) = max a b := by
  rcases max_cases a b with ⟨h, _⟩ | ⟨h, _⟩ <;> rw [h] <;> assumption

theorem sceneLE_trans (a b c : TaggedScene) :
    sceneLE a b = true → sceneLE b c = true → sceneLE a c = true := by
  simp only [sceneLE, decide_eq_true_eq]
  rintro (h₁ | ⟨h₁, h₁'⟩) (h₂ | ⟨h₂, h₂'⟩)
  · exact Or.inl (h₁.trans h₂)
  · exact Or.inl (h₂ ▸ h₁)
  · exact Or.inl (h₁ ▸ h₂)
  · exact Or.inr ⟨h₁.trans h₂, h₁'.trans h₂'⟩

theorem sceneLE_total (a b : TaggedScene) :
    (sceneLE a b || sceneLE b a) = true := by
  simp only [sceneLE, Bool.or_eq_true, decide_eq_true_eq]
  rcases lt_trichotomy (sceneSortKey a).1 (sceneSortKey b).1 with h | h | h
  · exact Or.inl (Or.inl h)
  · rcases le_total (sceneSortKey a).2 (sceneSortKey b).2 with h' | h'
    · exact Or.inl (Or.inr ⟨h, h'⟩)
    · exact Or.inr (Or.inr ⟨h.symm, h'⟩)
  · exact Or.inr (Or.inl h)

/-- Non-strict key order plus distinct submission indices gives strict key
order. -/
theorem sceneLE_ne_imp_lt {a b : TaggedScene} (h : sceneLE a b = true)
    (hne : a.origIndex ≠ b.origIndex) : sceneLT a b := by
  simp only [sceneLE, decide_eq_true_eq] at h
  rcases h with h | ⟨h, h'⟩
  · exact Or.inl h
  · refine Or.inr ⟨h, lt_of_le_of_ne h' ?_⟩
    simpa [sceneSortKey] using hne

/-- The submission indices attached by `tagScenes` are pairwise distinct. -/
theorem tagScenes_index_pairwise (scenes : List SceneInput) :
    (tagScenes scenes).Pairwise fun a b => a.origIndex ≠ b.origIndex := by
  have h : (tagScenes scenes).map (fun s => s.origIndex) =
      List.range scenes.length := by
    simp only [tagScenes, List.map_map]
    have hc : ((fun s : TaggedScene => s.origIndex) ∘
        fun p : ℕ × SceneInput => TaggedScene.mk p.2.order p.2.payload p.1) =
        Prod.fst := by
      funext p; rfl
    rw [hc, List.enum_map_fst]
  have hnd : ((tagScenes scenes).map fun s => s.origIndex).Nodup := by
    rw [h]; exact List.nodup_range _
  rw [List.Nodup, List.pairwise_map] at hnd
  exact hnd

/-- C1: after parallel per-scene preparation completes in any order, the
scenes passed to composition are sorted by the declared `order` (a numeric
interpretation, falling back to the submission index when absent or
non-numeric) with the submission index as tiebreaker — so the result does
not depend on completion order: sorting any permutation of the tagged
submission list yields the same sequence. -/
theorem scene_order_determined_by_sort_key
    (scenes : List SceneInput) (completed : List TaggedScene)
    (hperm : completed.Perm (tagScenes scenes)) :
    sortPreparedScenes completed = sortPreparedScenes (tagScenes scenes) := by
  have hsymm : ∀ {x y : TaggedScene},
      x.origIndex ≠ y.origIndex → y.origIndex ≠ x.origIndex :=
    fun h => h.symm
  have hidx : completed.Pairwise fun a b => a.origIndex ≠ b.origIndex :=
    (hperm.pairwise_iff hsymm).mpr (tagScenes_index_pairwise scenes)
  have hidx₁ : (sortPreparedScenes completed).Pairwise
      fun a b => a.origIndex ≠ b.origIndex :=
    ((List.mergeSort_perm completed sceneLE).pairwise_iff hsymm).mpr hidx
  have hidx₂ : (sortPreparedScenes (tagScenes scenes)).Pairwise
      fun a b => a.origIndex ≠ b.origIndex :=
    ((List.mergeSort_perm (tagScenes scenes) sceneLE).pairwise_iff hsymm).mpr
      (tagScenes_index_pairwise scenes)
  have hle₁ : (sortPreparedScenes completed).Pairwise
      fun a b => sceneLE a b = true :=
    List.sorted_mergeSort sceneLE_trans sceneLE_total completed
  have hle₂ : (sortPreparedScenes (tagScenes scenes)).Pairwise
      fun a b => sceneLE a b = true :=
    List.sorted_mergeSort sceneLE_trans sceneLE_total (tagScenes scenes)
  have hlt₁ : (sortPreparedScenes completed).Pairwise sceneLT :=
    (hle₁.and hidx₁).imp fun h => sceneLE_ne_imp_lt h.1 h.2
  have hlt₂ : (sortPreparedScenes (tagScenes scenes)).Pairwise sceneLT :=
    (hle₂.and hidx₂).imp fun h => sceneLE_ne_imp_lt h.1 h.2
  have hp : (sortPreparedScenes completed).Perm
      (sortPreparedScenes (tagScenes scenes)) :=
    (List.mergeSort_perm completed sceneLE).trans
      (hperm.trans (List.mergeSort_perm (tagScenes scenes) sceneLE).symm)
  exact List.eq_of_perm_of_sorted hp hlt₁ hlt₂

/-- Witness for C1 at a concrete input: two scenes completed in reversed
order still sort to the submission-determined sequence. -/
theorem scene_order_determined_by_sort_key_witness :
    ([⟨none, "b", 1⟩, ⟨some 2, "a", 0⟩] : List TaggedScene).Perm
        (tagScenes [⟨some 2, "a"⟩, ⟨none, "b"⟩]) ∧
    sortPreparedScenes [⟨none, "b", 1⟩, ⟨some 2, "a", 0⟩] =
      sortPreparedScenes (tagScenes [⟨some 2, "a"⟩, ⟨none, "b"⟩]) := by
  have hperm : ([⟨none, "b", 1⟩, ⟨some 2, "a", 0⟩] : List TaggedScene).Perm
      (tagScenes [⟨some 2, "a"⟩, ⟨none, "b"⟩]) := by
    show ([⟨none, "b", 1⟩, ⟨some 2, "a", 0⟩] : List TaggedScene).Perm
      [⟨some 2, "a", 0⟩, ⟨none, "b", 1⟩]
    exact List.Perm.swap _ _ _
  exact ⟨hperm, scene_order_determined_by_sort_key _ _ hperm⟩

/-- C2 (counterexample): the claim "no internal update changes a terminal
job's `status`/`videoUrl`/`error`" is false as stated — `_update` has no
terminal guard: updating the completed job `jobC2` with a `failed` status
and an error message changes both fields. -/
theorem terminal_update_counterexample :
    (stateC2.jobs "j1").map Job.status = some "completed" ∧
    ((updateJob stateC2 "j1" updC2).jobs "j1").map Job.status = some "failed" ∧
    ((updateJob stateC2 "j1" updC2).jobs "j1").map Job.error =
      some (some "boom") := by
  refine ⟨rfl, rfl, rfl⟩

/-- C2 (amended): `request_stop` leaves terminal jobs unchanged, but the
internal update routine `_update` does not check terminality: an update call
on a job in a terminal state still applies all supplied field changes,
including `status`, `videoUrl` and `error`. -/
theorem update_applies_unconditionally_to_terminal
    (s : OrchState) (jobId : String) (u : JobUpdate) (j : Job)
    (hj : s.jobs jobId = some j) (_hterm : j.status ∈ terminalStatuses) :
    (updateJob s jobId u).jobs jobId = some (applyUpdate j u) ∧
    (applyUpdate j u).status = u.status.getD j.status ∧
    (applyUpdate j u).videoUrl =
      (match u.videoUrl with | some v => some v | none => j.videoUrl) ∧
    (applyUpdate j u).error =
      (match u.error with | some v => some v | none => j.error) := by
  refine ⟨?_, rfl, rfl, rfl⟩
  simp [updateJob, hj]

/-- Witness for the amended C2 at a concrete input. -/
theorem update_applies_unconditionally_to_terminal_witness :
    stateC2.jobs "j1" = some jobC2 ∧ jobC2.status ∈ terminalStatuses ∧
    (updateJob stateC2 "j1" updC2).jobs "j1" = some (applyUpdate jobC2 updC2) := by
  have h := update_applies_unconditionally_to_terminal stateC2 "j1" updC2 jobC2
    rfl (by simp [jobC2, terminalStatuses])
  exact ⟨rfl, by simp [jobC2, terminalStatuses], h.1⟩

/-- C6: `request_stop` with a supported target no-ops (job and state
unchanged) on a terminal job; on a non-terminal job it moves the job to the
matching interim status (`cancelling`/`pausing`), raises the cancel signal
observed by `_is_cancelled`, and records the requested final status. -/
theorem requestStop_terminal_noop_and_interim
    (s : OrchState) (jobId final : String) (j : Job)
    (hj : s.jobs jobId = some j)
    (hfinal : final = "cancelled" ∨ final = "paused") :
    (j.status ∈ terminalStatuses → requestStop s jobId final = .ok (some j, s)) ∧
    (j.status ∉ terminalStatuses →
      ∃ s' : OrchState,
        requestStop s jobId final =
          .ok (some { j with
            status := if final = "cancelled" then "cancelling" else "pausing" },
            s') ∧
        isCancelled s' jobId = true ∧
        s'.cancelTargets jobId = some final ∧
        s'.jobs jobId = some { j with
          status := if final = "cancelled" then "cancelling" else "pausing" }) := by
  have hguard : ¬(final ≠ "cancelled" ∧ final ≠ "paused") := by
    rcases hfinal with h | h <;> simp [h]
  constructor
  · intro hterm
    unfold requestStop
    rw [if_neg hguard, hj]
    simp only []
    rw [if_pos hterm]
  · intro hterm
    unfold requestStop
    rw [if_neg hguard, hj]
    simp only []
    rw [if_neg hterm]
    refine ⟨_, rfl, ?_, ?_, ?_⟩
    · simp [isCancelled]
    · simp
    · simp

/-- Witness for C6 at a concrete input: a rendering job receives a pause
request. -/
theorem requestStop_terminal_noop_and_interim_witness :
    stateC6.jobs "j2" = some jobC6 ∧
    ("paused" = "cancelled" ∨ "paused" = "paused") ∧
    (jobC6.status ∉ terminalStatuses →
      ∃ s' : OrchState,
        requestStop stateC6 "j2" "paused" =
          .ok (some { jobC6 with status := "pausing" }, s') ∧
        isCancelled s' "j2" = true ∧
        s'.cancelTargets "j2" = some "paused" ∧
        s'.jobs "j2" = some { jobC6 with status := "pausing" }) := by
  have h := requestStop_terminal_noop_and_interim stateC6 "j2" "paused" jobC6
    rfl (Or.inr rfl)
  refine ⟨rfl, Or.inr rfl, ?_⟩
  intro hterm
  simpa using h.2 hterm

/-- C10: `request_stop` raises `ValueError` for any target final status other
than `cancelled` or `paused`, producing no result and no state change. -/
theorem requestStop_rejects_unsupported_status
    (s : OrchState) (jobId final : String)
    (h₁ : final ≠ "cancelled") (h₂ : final ≠ "paused") :
    requestStop s jobId final =
      .error ("Unsupported stop status: " ++ final) := by
  unfold requestStop
  rw [if_pos ⟨h₁, h₂⟩]

/-- Witness for C10 at a concrete input. -/
theorem requestStop_rejects_unsupported_status_witness :
    ("completed" : String) ≠ "cancelled" ∧ ("completed" : String) ≠ "paused" ∧
    requestStop stateC6 "j2" "completed" =
      .error "Unsupported stop status: completed" := by
  refine ⟨by decide, by decide, ?_⟩
  exact requestStop_rejects_unsupported_status stateC6 "j2" "completed"
    (by decide) (by decide)

/-- C5: the media cache path is a deterministic function of the URL (the
stable hash plus the extension inferred from the URL path, defaulting to
`.mp4`); acquiring a URL not yet cached performs exactly one network fetch,
and a second acquire for the same URL returns the identical path with no
further fetch and no state change. -/
theorem ensureLocalClip_caches_once
    (hash : String → String) (netOk : String → Bool) (cacheDir url : String)
    (s : MediaCacheState)
    (hmiss : cacheKeyPath hash cacheDir url ∉ s.files)
    (hnet : netOk url = true) :
    (∃ s' : MediaCacheState,
      ensureLocalClip hash netOk cacheDir url s =
        .ok (cacheKeyPath hash cacheDir url, s') ∧
      s'.fetchCount = s.fetchCount + 1 ∧
      ensureLocalClip hash netOk cacheDir url s' =
        .ok (cacheKeyPath hash cacheDir url, s')) ∧
    (pySplitextExt (url.toList.takeWhile (· ≠ '?')) = [] →
      cacheKeyPath hash cacheDir url = cacheDir ++ "/" ++ hash url ++ ".mp4") := by
  constructor
  · refine ⟨⟨cacheKeyPath hash cacheDir url :: s.files, s.fetchCount + 1⟩, ?_, rfl, ?_⟩
    · unfold ensureLocalClip
      rw [if_neg hmiss, if_pos hnet]
    · unfold ensureLocalClip
      rw [if_pos (List.mem_cons_self _ _)]
  · intro hne
    simp only [cacheKeyPath, urlExt]
    rw [hne]
    rfl

/-- Witness for C5 at a concrete input: an extensionless URL acquired twice
from an empty cache. -/
theorem ensureLocalClip_caches_once_witness :
    cacheKeyPath (fun _ => "h") "cache" "http://x/v" ∉
        (⟨[], 0⟩ : MediaCacheState).files ∧
    (∃ s' : MediaCacheState,
      ensureLocalClip (fun _ => "h") (fun _ => true) "cache" "http://x/v" ⟨[], 0⟩ =
        .ok (cacheKeyPath (fun _ => "h") "cache" "http://x/v", s') ∧
      s'.fetchCount = 0 + 1 ∧
      ensureLocalClip (fun _ => "h") (fun _ => true) "cache" "http://x/v" s' =
        .ok (cacheKeyPath (fun _ => "h") "cache" "http://x/v", s')) := by
  have h := ensureLocalClip_caches_once (fun _ => "h") (fun _ => true)
    "cache" "http://x/v" ⟨[], 0⟩ (by simp) rfl
  exact ⟨by simp, h.1⟩

/-- Scene preparation fails for the whole batch as soon as any scene's
processing raises. -/
theorem prepareScenes_error_of_mem (env : PrepEnv) (voiceModel : Option String)
    (scenes : List PrepScene) (s : PrepScene) (hmem : s ∈ scenes) (e : String)
    (he : processScene env false voiceModel s = .error e) :
    ∃ msg, prepareScenes env false voiceModel scenes = .error msg := by
  induction scenes with
  | nil => cases hmem
  | cons a rest ih =>
    rcases List.mem_cons.mp hmem with rfl | hmem'
    · exact ⟨e, by simp [prepareScenes, he]⟩
    · cases ha : processScene env false voiceModel a with
      | error msg => exact ⟨msg, by simp [prepareScenes, ha]⟩
      | ok r =>
        obtain ⟨msg, hmsg⟩ := ih hmem'
        exact ⟨msg, by simp [prepareScenes, ha, hmsg]⟩

/-- C9: a caption-timing failure for a scene is recovered locally — the scene
is returned with an empty caption list and processing proceeds — while a
narration-synthesis failure propagates out of the scene worker, fails the
whole preparation batch, and drives the job to `failed`. -/
theorem caption_failure_nonfatal_tts_failure_fatal
    (env : PrepEnv) (voiceModel : Option String) (s : PrepScene) :
    (∀ (path : String) (dur : ℚ) (msg : String),
      env.tts ((pyTruthy s.script).getD ((pyTruthy s.text).getD ""))
          ((pyTruthy s.ttsVoice).orElse fun _ => voiceModel) = .ok (path, dur) →
      env.transcribe (toWavPath path)
          ((pyTruthy s.script).getD ((pyTruthy s.text).getD "")) = .error msg →
      processScene env false voiceModel s =
        .ok (some ⟨s.script, s.text, s.ttsVoice, toWavPath path,
          pyRound2 dur, []⟩)) ∧
    (∀ msg : String,
      env.tts ((pyTruthy s.script).getD ((pyTruthy s.text).getD ""))
          ((pyTruthy s.ttsVoice).orElse fun _ => voiceModel) = .error msg →
      processScene env false voiceModel s = .error msg ∧
      (∀ scenes : List PrepScene, s ∈ scenes →
        ∃ msg', prepareScenes env false voiceModel scenes = .error msg' ∧
          ∀ job : Job, (failJob job msg').status = "failed" ∧
            (failJob job msg').error = some msg' ∧
            (failJob job msg').status ≠ "completed")) := by
  constructor
  · intro path dur msg htts htr
    simp [processScene, htts, htr]
  · intro msg htts
    have hp : processScene env false voiceModel s = .error msg := by
      simp [processScene, htts]
    refine ⟨hp, ?_⟩
    intro scenes hmem
    obtain ⟨msg', hmsg'⟩ := prepareScenes_error_of_mem env voiceModel scenes s hmem msg hp
    exact ⟨msg', hmsg', fun job => ⟨rfl, rfl, by simp [failJob, applyUpdate]⟩⟩

/-- Witness for C9 at concrete inputs: one scene whose transcription fails
(kept, with empty captions) and one scene whose narration synthesis fails
(error propagates). -/
theorem caption_failure_nonfatal_tts_failure_fatal_witness :
    envC9.tts "hi" none = .ok ("a.mp3", 3/2) ∧
    envC9.transcribe (toWavPath "a.mp3") "hi" = .error "nope" ∧
    envC9.tts "fail" none = .error "boom" ∧
    processScene envC9 false none ⟨some "hi", none, none⟩ =
      .ok (some ⟨some "hi", none, none, toWavPath "a.mp3", pyRound2 (3/2), []⟩) ∧
    processScene envC9 false none ⟨some "fail", none, none⟩ = .error "boom" := by
  refine ⟨rfl, rfl, rfl, ?_, ?_⟩
  · exact (caption_failure_nonfatal_tts_failure_fatal envC9 none
      ⟨some "hi", none, none⟩).1 "a.mp3" (3/2) "nope" rfl rfl
  · exact ((caption_failure_nonfatal_tts_failure_fatal envC9 none
      ⟨some "fail", none, none⟩).2 "boom" rfl).1

/-- When no cancellation is requested and some scene's narration audio file
does not exist, the per-scene composition loop fails with a fatal error
(never a cancellation). -/
theorem renderLoop_missing_audio_errors (env : CompEnv) (hash : String → String)
    (cacheDir : String) (hcancel : ∀ n, env.cancel n = false) :
    ∀ (scenes : List RenderScene) (tick count : ℕ) (cache : MediaCacheState)
      (s : RenderScene), s ∈ scenes → env.fileExists s.audioPath = false →
      ∃ msg, renderLoop env hash cacheDir scenes tick count cache =
        .error (.fatal msg) := by
  intro scenes
  induction scenes with
  | nil => intro tick count cache s hmem; cases hmem
  | cons a rest ih =>
    intro tick count cache s hmem hmiss
    by_cases hA : env.fileExists a.audioPath = false
    · exact ⟨"Audio track missing for scene " ++ pyShowOpt a.id,
        by simp [renderLoop, hcancel, hA]⟩
    · have hsa : s ≠ a := fun h => hA (h ▸ hmiss)
      have hrest : s ∈ rest := by
        rcases List.mem_cons.mp hmem with h | h
        · exact absurd h hsa
        · exact h
      have hAe : env.fileExists a.audioPath = true := by
        simpa using hA
      rcases hmedia : a.mediaUrl with _ | url
      · cases hbuild : env.buildScene count with
        | error msg =>
          exact ⟨msg, by simp [renderLoop, hcancel, hAe, hmedia, hbuild]⟩
        | ok u =>
          obtain ⟨m, hm⟩ := ih (tick + 2) (count + 1) cache s hrest hmiss
          exact ⟨m, by simp [renderLoop, hcancel, hAe, hmedia, hbuild, hm]⟩
      · cases hfetch : ensureLocalClip hash env.netOk cacheDir url cache with
        | error e =>
          exact ⟨"Media download failed for " ++ url,
            by simp [renderLoop, hcancel, hAe, hmedia, hfetch]⟩
        | ok pr =>
          obtain ⟨pth, cache'⟩ := pr
          cases hbuild : env.buildScene count with
          | error msg =>
            exact ⟨msg, by
              simp [renderLoop, hcancel, hAe, hmedia, hfetch, hbuild]⟩
          | ok u =>
            obtain ⟨m, hm⟩ := ih (tick + 2) (count + 1) cache' s hrest hmiss
            exact ⟨m, by
              simp [renderLoop, hcancel, hAe, hmedia, hfetch, hbuild, hm]⟩

/-- C4: when a scene's narration audio file does not exist at composition
time (and the job is not being cancelled), `render_project` fails with a
fatal error, and the completed-render handling takes the job to `failed`
with that error message recorded — never to `completed`. -/
theorem missing_audio_fails_job
    (env : CompEnv) (hash : String → String) (cacheDir projectId : String)
    (scenes : List RenderScene) (cache : MediaCacheState) (s : RenderScene)
    (hcancel : ∀ n, env.cancel n = false)
    (hmem : s ∈ scenes) (hmiss : env.fileExists s.audioPath = false) :
    ∃ msg,
      renderProject env hash cacheDir projectId scenes cache =
        .error (.fatal msg) ∧
      ∀ (job : Job) (target : String) (cancelAfter : Bool)
        (uploadedUrl : Option String) (bust : String),
        (finishRender job target
            (renderProject env hash cacheDir projectId scenes cache)
            cancelAfter uploadedUrl projectId bust).status = "failed" ∧
        (finishRender job target
            (renderProject env hash cacheDir projectId scenes cache)
            cancelAfter uploadedUrl projectId bust).error = some msg ∧
        (finishRender job target
            (renderProject env hash cacheDir projectId scenes cache)
            cancelAfter uploadedUrl projectId bust).status ≠ "completed" := by
  obtain ⟨msg, hloop⟩ :=
    renderLoop_missing_audio_errors env hash cacheDir hcancel scenes 0 0 cache
      s hmem hmiss
  have hrp : renderProject env hash cacheDir projectId scenes cache =
      .error (.fatal msg) := by
    simp [renderProject, hloop]
  refine ⟨msg, hrp, ?_⟩
  intro job target cancelAfter uploadedUrl bust
  rw [hrp]
  refine ⟨rfl, rfl, by simp [finishRender, applyUpdate]⟩

/-- Witness for C4 at a concrete input: a single scene whose audio file is
absent. -/
theorem missing_audio_fails_job_witness :
    (∀ n, envC4.cancel n = false) ∧
    (⟨some "s0", some 2, none, "a.wav", none⟩ : RenderScene) ∈
      [(⟨some "s0", some 2, none, "a.wav", none⟩ : RenderScene)] ∧
    envC4.fileExists "a.wav" = false ∧
    ∃ msg,
      renderProject envC4 (fun _ => "h") "cache" "p1"
        [⟨some "s0", some 2, none, "a.wav", none⟩] ⟨[], 0⟩ =
        .error (.fatal msg) := by
  have h := missing_audio_fails_job envC4 (fun _ => "h") "cache" "p1"
    [⟨some "s0", some 2, none, "a.wav", none⟩] ⟨[], 0⟩
    ⟨some "s0", some 2, none, "a.wav", none⟩ (fun _ => rfl)
    (List.mem_cons_self _ _) rfl
  exact ⟨fun _ => rfl, List.mem_cons_self _ _, rfl, h.choose, h.choose_spec.1⟩

/-- Membership in `dropLast` of a cons. -/
theorem mem_dropLast_cons {α : Type} {a x : α} {l : List α}
    (h : x ∈ (a :: l).dropLast) : (x = a ∧ l ≠ []) ∨ x ∈ l.dropLast := by
  cases l with
  | nil => simp at h
  | cons b bs =>
    rw [List.dropLast_cons₂] at h
    rcases List.mem_cons.mp h with rfl | h'
    · exact Or.inl ⟨rfl, by simp⟩
    · exact Or.inr h'

/-- Invariant of the grouping loop: starting from a partial line none of
whose prefixes closes, the produced lines partition the input, are
nonempty, close exactly at their ends (except possibly the flushed final
line), and close nowhere earlier. -/
theorem groupAux_spec (maxW : ℕ) :
    ∀ (l current : List CaptionWord),
      (∀ (k : ℕ) (w : CaptionWord), current[k]? = some w →
        closeCond maxW (k + 1) w = false) →
      (groupAux maxW current l).flatten = current ++ l ∧
      (∀ g ∈ groupAux maxW current l, g ≠ []) ∧
      (∀ g ∈ (groupAux maxW current l).dropLast,
        ∃ w, g.getLast? = some w ∧ closeCond maxW g.length w = true) ∧
      (∀ g ∈ groupAux maxW current l, ∀ (k : ℕ) (w : CaptionWord),
        k + 1 < g.length → g[k]? = some w →
        closeCond maxW (k + 1) w = false) := by
  intro l
  induction l with
  | nil =>
    intro current hcur
    by_cases hc : current.isEmpty = true
    · have hnil : current = [] := List.isEmpty_iff.mp hc
      subst hnil
      refine ⟨by simp [groupAux], ?_, ?_, ?_⟩ <;> simp [groupAux]
    · have hrw : groupAux maxW current [] = [current] := by
        simp [groupAux, hc]
      have hne : current ≠ [] := by simpa using hc
      refine ⟨by simp [hrw], ?_, ?_, ?_⟩
      · intro g hg
        rw [hrw] at hg
        rcases List.mem_cons.mp hg with rfl | hg'
        · exact hne
        · cases hg'
      · intro g hg
        rw [hrw] at hg
        simp at hg
      · intro g hg k w hk hw
        rw [hrw] at hg
        rcases List.mem_cons.mp hg with rfl | hg'
        · exact hcur k w hw
        · cases hg'
  | cons w ws ih =>
    intro current hcur
    by_cases hclose : closeCond maxW (current ++ [w]).length w = true
    · have hrw : groupAux maxW current (w :: ws) =
          (current ++ [w]) :: groupAux maxW [] ws := by
        show (if closeCond maxW (current ++ [w]).length w then
            (current ++ [w]) :: groupAux maxW [] ws
          else groupAux maxW (current ++ [w]) ws) = _
        rw [if_pos hclose]
      obtain ⟨ih1, ih2, ih3, ih4⟩ := ih [] (by intro k w' h; simp at h)
      refine ⟨?_, ?_, ?_, ?_⟩
      · rw [hrw]
        simp only [List.flatten_cons, ih1, List.append_nil, List.nil_append]
        rw [List.append_assoc, List.singleton_append]
      · intro g hg
        rw [hrw] at hg
        rcases List.mem_cons.mp hg with rfl | hg'
        · simp
        · exact ih2 g hg'
      · intro g hg
        rw [hrw] at hg
        rcases mem_dropLast_cons hg with ⟨rfl, _⟩ | hg'
        · exact ⟨w, List.getLast?_concat _, hclose⟩
        · exact ih3 g hg'
      · intro g hg k w' hk hw'
        rw [hrw] at hg
        rcases List.mem_cons.mp hg with rfl | hg'
        · have hklt : k < current.length := by
            have := hk
            simp only [List.length_append, List.length_cons,
              List.length_nil] at this
            omega
          rw [@List.getElem?_append_left _ current [w] k hklt] at hw'
          exact hcur k w' hw'
        · exact ih4 g hg' k w' hk hw'
    · have hrw : groupAux maxW current (w :: ws) =
          groupAux maxW (current ++ [w]) ws := by
        show (if closeCond maxW (current ++ [w]).length w then
            (current ++ [w]) :: groupAux maxW [] ws
          else groupAux maxW (current ++ [w]) ws) = _
        rw [if_neg hclose]
      have hcur' : ∀ (k : ℕ) (w' : CaptionWord),
          (current ++ [w])[k]? = some w' →
          closeCond maxW (k + 1) w' = false := by
        intro k w' hw'
        by_cases hklt : k < current.length
        · rw [@List.getElem?_append_left _ current [w] k hklt] at hw'
          exact hcur k w' hw'
        · have hkub : ¬((current ++ [w]).length ≤ k) := by
            intro hle
            rw [List.getElem?_eq_none hle] at hw'
            cases hw'
          have hkeq : k = current.length := by
            simp only [List.length_append, List.length_cons,
              List.length_nil] at hkub
            omega
          rw [hkeq, List.getElem?_concat_length] at hw'
          have hww : w' = w := by
            injection hw' with h
            exact h.symm
          have hlen : k + 1 = (current ++ [w]).length := by
            simp [hkeq]
          rw [hww, hlen]
          simpa using hclose
      obtain ⟨ih1, ih2, ih3, ih4⟩ := ih (current ++ [w]) hcur'
      refine ⟨?_, ?_, ?_, ?_⟩
      · rw [hrw, ih1, List.append_assoc, List.singleton_append]
      · intro g hg; rw [hrw] at hg; exact ih2 g hg
      · intro g hg; rw [hrw] at hg; exact ih3 g hg
      · intro g hg; rw [hrw] at hg; exact ih4 g hg

/-- C7: in line mode, `_group_words_into_lines` partitions the word stream
into nonempty lines, and a line closes exactly when `closeCond` fires: the
line reaches the style's max words per line, or its current word ends a
sentence (`.`, `!`, `?`), or ends a clause (`;`, `:`) while the line
already holds at least half (integer half, `max_words // 2`) of the max —
every line except the flushed final one ends at such a point, and no line
contains an earlier such point. -/
theorem group_words_into_lines_closes_exactly
    (maxWords : ℕ) (words : List CaptionWord) :
    (groupWordsIntoLines maxWords words).flatten = words ∧
    (∀ g ∈ groupWordsIntoLines maxWords words, g ≠ []) ∧
    (∀ g ∈ (groupWordsIntoLines maxWords words).dropLast,
      ∃ w, g.getLast? = some w ∧ closeCond maxWords g.length w = true) ∧
    (∀ g ∈ groupWordsIntoLines maxWords words, ∀ (k : ℕ) (w : CaptionWord),
      k + 1 < g.length → g[k]? = some w →
      closeCond maxWords (k + 1) w = false) := by
  have h := groupAux_spec maxWords words [] (by intro k w hw; simp at hw)
  simpa [groupWordsIntoLines] using h

/-- C8: for a scene without caption words, `_fallback_words_from_text` splits
the text on whitespace and distributes the tokens evenly: with a positive
authoritative duration `d` and `n` tokens (and `d/n` expressible at
millisecond precision, so the 3-decimal rounding is exact) token `i` spans
`[i·d/n, (i+1)·d/n)`; with no known duration each token gets the fixed
`0.4`-second fallback slot. -/
theorem fallback_words_even_split
    (text : String) (d : ℚ) (n : ℕ)
    (hn : (pyTokens text).length = n) (hpos : 0 < n) (hd : 0 < d)
    (hmil : ∃ m : ℤ, (m : ℚ) = d / (n : ℚ) * 1000) :
    fallbackWordsFromText text (some d) =
      (pyTokens text).enum.map (fun p =>
        ⟨p.2, (p.1 : ℚ) * (d / (n : ℚ)), ((p.1 : ℚ) + 1) * (d / (n : ℚ))⟩) ∧
    fallbackWordsFromText text none =
      (pyTokens text).enum.map (fun p =>
        ⟨p.2, (p.1 : ℚ) * (2/5), ((p.1 : ℚ) + 1) * (2/5)⟩) := by
  obtain ⟨m, hm⟩ := hmil
  have hne : (pyTokens text).isEmpty = false := by
    rw [List.isEmpty_eq_false]
    intro h
    rw [h] at hn
    simp at hn
    omega
  have hnq : ((n : ℚ)) ≠ 0 := Nat.cast_ne_zero.mpr (by omega)
  have hfix : ∀ i : ℕ, pyRound3 ((i : ℚ) * (d / (n : ℚ))) =
      (i : ℚ) * (d / (n : ℚ)) := by
    intro i
    refine pyRound3_eq_self ⟨(i : ℤ) * m, ?_⟩
    push_cast
    rw [hm]
    ring
  have hfix' : ∀ i : ℕ, pyRound3 (((i : ℚ) + 1) * (d / (n : ℚ))) =
      ((i : ℚ) + 1) * (d / (n : ℚ)) := by
    intro i
    refine pyRound3_eq_self ⟨((i : ℤ) + 1) * m, ?_⟩
    push_cast
    rw [hm]
    ring
  have hfixn : ∀ i : ℕ, pyRound3 ((i : ℚ) * (2/5)) = (i : ℚ) * (2/5) := by
    intro i
    refine pyRound3_eq_self ⟨(i : ℤ) * 400, ?_⟩
    push_cast
    ring
  have hfixn' : ∀ i : ℕ, pyRound3 (((i : ℚ) + 1) * (2/5)) =
      ((i : ℚ) + 1) * (2/5) := by
    intro i
    refine pyRound3_eq_self ⟨((i : ℤ) + 1) * 400, ?_⟩
    push_cast
    ring
  constructor
  · simp only [fallbackWordsFromText, hne, Bool.false_eq_true, if_false, hd,
      if_true, hn]
    apply List.map_congr_left
    intro p hp
    have h1 := hfix p.1
    have h2 := hfix' p.1
    rw [h1]
    have h3 : (p.1 : ℚ) * (d / (n : ℚ)) + d / (n : ℚ) =
        ((p.1 : ℚ) + 1) * (d / (n : ℚ)) := by ring
    rw [h3, h2]
  · simp only [fallbackWordsFromText, hne, Bool.false_eq_true, if_false, hn]
    have hsl : ((n : ℚ)) * (2/5) / (n : ℚ) = 2/5 := by
      field_simp
      ring
    rw [hsl]
    apply List.map_congr_left
    intro p hp
    have h1 := hfixn p.1
    have h2 := hfixn' p.1
    rw [h1]
    have h3 : (p.1 : ℚ) * (2/5) + 2/5 = ((p.1 : ℚ) + 1) * (2/5) := by ring
    rw [h3, h2]

/-- Witness for C8 at the concrete input of the claim: `"hello world"` over
2.0 seconds yields two words evenly splitting `[0.0, 2.0)`. -/
theorem fallback_words_even_split_witness :
    (pyTokens "hello world").length = 2 ∧ (0 : ℚ) < 2 ∧
    fallbackWordsFromText "hello world" (some 2) =
      [⟨"hello", 0, 1⟩, ⟨"world", 1, 2⟩] := by
  have htoks : pyTokens "hello world" = ["hello", "world"] := by decide
  have h := (fallback_words_even_split "hello world" 2 2 (by rw [htoks]; rfl)
    (by omega) (by norm_num) ⟨1000, by norm_num⟩).1
  refine ⟨by rw [htoks]; rfl, by norm_num, ?_⟩
  rw [h, htoks]
  simp only [List.enum, List.enumFrom_cons, List.map_cons, List.map_nil,
    List.enumFrom_nil]
  norm_num

/-- `_scene_duration` is the greater of the declared duration and the last
caption word's end, whenever the declared duration is present, nonnegative
and exact at 3 decimals (as are all durations the pipeline produces). -/
theorem sceneDuration_eq_max (s : CaptionScene) (ws : List CaptionWord) (d : ℚ)
    (hd : declaredDuration s = some d) (h0 : 0 ≤ d) (hr : pyRound3 d = d)
    (hw : pyRound3 (lastEnd ws) = lastEnd ws) :
    sceneDuration s ws = max d (lastEnd ws) := by
  simp only [sceneDuration, hd]
  by_cases hlt : d < lastEnd ws
  · rw [if_pos hlt, hw, max_eq_right (h0.trans (le_of_lt hlt)),
      max_eq_right (le_of_lt hlt)]
  · rw [if_neg hlt, hr, max_eq_right h0, max_eq_left (not_lt.mp hlt)]

/-- Normalising a single-word caption payload timed at local `0.0` with a
positive, 3-decimal-exact end. -/
theorem normalise_single (t : String) (e : ℚ) (ht : pyStrip t ≠ "")
    (he : 0 < e) (hr : pyRound3 e = e) :
    normaliseCaptionPayload (some [⟨t, some 0, some e⟩]) =
      [⟨pyStrip t, 0, e⟩] := by
  have r0 : pyRound3 0 = 0 := pyRound3_eq_self ⟨0, by norm_num⟩
  simp only [normaliseCaptionPayload, normaliseGo, coerceTime, r0]
  rw [if_neg ht, hr, if_neg (not_le.mpr he)]
  simp

/-- C3: the subtitle builder keeps a running timeline offset starting at 0;
after each scene the offset advances by the scene's `_scene_duration` — the
greater of its declared duration and its last caption word's end — and in
particular three scenes of durations 5.0s, 3.2s and 4.0s, each carrying one
caption word at local time 0.0s, emit words at absolute start times 0.0s,
5.0s and 8.2s. -/
theorem subtitle_timeline_continuity :
    (∀ (offset : ℚ) (s : CaptionScene) (rest : List CaptionScene),
      assembleWordsFrom offset (s :: rest) =
        (localWords s).map (fun w =>
          ⟨w.text, pyRound3 (w.start + offset), pyRound3 (w.stop + offset)⟩) ++
        assembleWordsFrom (pyRound3 (offset + sceneDuration s (localWords s)))
          rest) ∧
    (∀ (s : CaptionScene) (ws : List CaptionWord) (d : ℚ),
      declaredDuration s = some d → 0 ≤ d → pyRound3 d = d →
      pyRound3 (lastEnd ws) = lastEnd ws →
      sceneDuration s ws = max d (lastEnd ws)) ∧
    (∀ (t₁ t₂ t₃ : String) (e₁ e₂ e₃ : ℚ),
      pyStrip t₁ ≠ "" → pyStrip t₂ ≠ "" → pyStrip t₃ ≠ "" →
      0 < e₁ → e₁ ≤ 5 → pyRound3 e₁ = e₁ →
      0 < e₂ → e₂ ≤ 16/5 → pyRound3 e₂ = e₂ →
      0 < e₃ → e₃ ≤ 4 → pyRound3 e₃ = e₃ →
      (assembleWords
        [⟨some [⟨t₁, some 0, some e₁⟩], none, none, some 5, none⟩,
         ⟨some [⟨t₂, some 0, some e₂⟩], none, none, some (16/5), none⟩,
         ⟨some [⟨t₃, some 0, some e₃⟩], none, none, some 4, none⟩]).map
        CaptionWord.start = [0, 5, 41/5]) := by
  refine ⟨fun offset s rest => rfl, sceneDuration_eq_max, ?_⟩
  intro t₁ t₂ t₃ e₁ e₂ e₃ ht₁ ht₂ ht₃ he₁ he₁' hr₁ he₂ he₂' hr₂ he₃ he₃' hr₃
  have r0 : pyRound3 0 = 0 := pyRound3_eq_self ⟨0, by norm_num⟩
  have r5 : pyRound3 5 = 5 := pyRound3_eq_self ⟨5000, by norm_num⟩
  have r32 : pyRound3 (16/5) = 16/5 := pyRound3_eq_self ⟨3200, by norm_num⟩
  have r82 : pyRound3 (41/5) = 41/5 := pyRound3_eq_self ⟨8200, by norm_num⟩
  have hl1 : localWords
      ⟨some [⟨t₁, some 0, some e₁⟩], none, none, some 5, none⟩ =
      [⟨pyStrip t₁, 0, e₁⟩] := by
    simp only [localWords]
    rw [normalise_single t₁ e₁ ht₁ he₁ hr₁]
    simp
  have hl2 : localWords
      ⟨some [⟨t₂, some 0, some e₂⟩], none, none, some (16/5), none⟩ =
      [⟨pyStrip t₂, 0, e₂⟩] := by
    simp only [localWords]
    rw [normalise_single t₂ e₂ ht₂ he₂ hr₂]
    simp
  have hl3 : localWords
      ⟨some [⟨t₃, some 0, some e₃⟩], none, none, some 4, none⟩ =
      [⟨pyStrip t₃, 0, e₃⟩] := by
    simp only [localWords]
    rw [normalise_single t₃ e₃ ht₃ he₃ hr₃]
    simp
  have hd1 : declaredDuration
      ⟨some [⟨t₁, some 0, some e₁⟩], none, none, some 5, none⟩ = some 5 := by
    simp only [declaredDuration, r5]
  have hd2 : declaredDuration
      ⟨some [⟨t₂, some 0, some e₂⟩], none, none, some (16/5), none⟩ =
      some (16/5) := by
    simp only [declaredDuration, r32]
  have hsd1 : sceneDuration
      ⟨some [⟨t₁, some 0, some e₁⟩], none, none, some 5, none⟩
      [⟨pyStrip t₁, 0, e₁⟩] = 5 := by
    rw [sceneDuration_eq_max _ _ 5 hd1 (by norm_num) r5
      (by show pyRound3 e₁ = e₁; exact hr₁)]
    exact max_eq_left he₁'
  have hsd2 : sceneDuration
      ⟨some [⟨t₂, some 0, some e₂⟩], none, none, some (16/5), none⟩
      [⟨pyStrip t₂, 0, e₂⟩] = 16/5 := by
    rw [sceneDuration_eq_max _ _ (16/5) hd2 (by norm_num) r32
      (by show pyRound3 e₂ = e₂; exact hr₂)]
    exact max_eq_left he₂'
  have o2 : pyRound3 ((0:ℚ) + 5) = 5 := by
    rw [zero_add]; exact r5
  have o3 : pyRound3 ((5:ℚ) + 16/5) = 41/5 := by
    rw [show (5:ℚ) + 16/5 = 41/5 from by norm_num]; exact r82
  have a1 : pyRound3 ((0:ℚ) + 0) = 0 := by
    rw [add_zero]; exact r0
  have a3 : pyRound3 ((0:ℚ) + 41/5) = 41/5 := by
    rw [zero_add]; exact r82
  simp only [assembleWords, assembleWordsFrom, hl1, hl2, hl3, hsd1, hsd2]
  simp only [List.map_cons, List.map_nil, List.map_append, List.append_nil]
  simp only [o2, o3, a1, a3]
  rfl

/-- Witness for C3 at a concrete input: each scene carries one word `"hi"`
at local time 0.0s ending at 0.5s. -/
theorem subtitle_timeline_continuity_witness :
    pyStrip "hi" ≠ "" ∧ (0:ℚ) < 1/2 ∧ (1/2:ℚ) ≤ 5 ∧
    pyRound3 (1/2 : ℚ) = 1/2 ∧
    (assembleWords
      [⟨some [⟨"hi", some 0, some (1/2)⟩], none, none, some 5, none⟩,
       ⟨some [⟨"hi", some 0, some (1/2)⟩], none, none, some (16/5), none⟩,
       ⟨some [⟨"hi", some 0, some (1/2)⟩], none, none, some 4, none⟩]).map
      CaptionWord.start = [0, 5, 41/5] := by
  have hr : pyRound3 (1/2 : ℚ) = 1/2 := pyRound3_eq_self ⟨500, by norm_num⟩
  have ht : pyStrip "hi" ≠ "" := by decide
  refine ⟨ht, by norm_num, by norm_num, hr, ?_⟩
  exact (subtitle_timeline_continuity).2.2 "hi" "hi" "hi" (1/2) (1/2) (1/2)
    ht ht ht (by norm_num) (by norm_num) hr (by norm_num) (by norm_num) hr
    (by norm_num) (by norm_num) hr
